import Mathlib

/-!
Verification of the data synchronization and caching subsystem of the
f1-dashboard repository: a shallow embedding of the circuit breaker and the
retry wrapper, the Redis cache read-through with its fallback branch, the
standings upsert against the relational schema, the season completeness
function, the file storage engine, and the sync orchestrator together with
its concurrency limiter, followed by theorems settling the spec claims.
-/

namespace F1Dashboard

/-! ## Storage TTL configuration (src/lib/storage/F1DataStorage.ts) -/

/-- Per-class time-to-live values, in milliseconds, of the four storage
classes declared by F1_STORAGE_CONFIG in src/lib/storage/F1DataStorage.ts. -/
structure StorageConfig where
  historicalTtl : Nat
  currentTtl : Nat
  realtimeTtl : Nat
  staticTtl : Nat
deriving Repr, DecidableEq

/-- F1_STORAGE_CONFIG: 7 days for historical data, 1 hour for the current
season, 5 minutes for real-time data, 30 days for static data. -/
def F1_STORAGE_CONFIG : StorageConfig where
  historicalTtl := 7 * 24 * 60 * 60 * 1000
  currentTtl := 60 * 60 * 1000
  realtimeTtl := 5 * 60 * 1000
  staticTtl := 30 * 24 * 60 * 60 * 1000

/-! ## Circuit breaker (part_015, class CircuitBreaker) -/

/-- Mutable state of the CircuitBreaker class: the consecutive failure
counter and the timestamp, in milliseconds, of the last failure. A fresh
breaker starts at zero on both fields. -/
structure CircuitBreaker where
  failureCount : Nat
  lastFailureTime : Nat
deriving Repr, DecidableEq

/-- failureThreshold of the CircuitBreaker class. -/
def failureThreshold : Nat := 5

/-- recoveryTimeout of the CircuitBreaker class: one minute in ms. -/
def recoveryTimeout : Nat := 60000

/-- isOpen: the failure count reached the threshold and the recovery timeout
has not yet elapsed since the last failure. Timestamps are nonnegative and
`now - lastFailureTime` truncates at zero exactly when the JS difference is
negative, in which case both sides of the embedding report the breaker
open. -/
def CircuitBreaker.isOpen (cb : CircuitBreaker) (now : Nat) : Bool :=
  failureThreshold ≤ cb.failureCount && now - cb.lastFailureTime < recoveryTimeout

/-- Outcome of one call through the breaker: the guarded value, the fail-fast
circuit-open error, or the error of the guarded function itself. -/
inductive CBOutcome (ε α : Type) where
  | ok (a : α)
  | circuitOpenError
  | failed (e : ε)
deriving Repr, DecidableEq

/-- One call of CircuitBreaker.execute at time `now`, where the guarded
function, if invoked, settles with `fnResult`. Returns the outcome, the
breaker state after the call, and whether the guarded function was invoked.
A success resets the failure counter; a failure increments it and stamps the
current time. -/
def CircuitBreaker.execute (cb : CircuitBreaker) (now : Nat)
    (fnResult : Except ε α) : CBOutcome ε α × CircuitBreaker × Bool :=
  if cb.isOpen now then
    (CBOutcome.circuitOpenError, cb, false)
  else
    match fnResult with
    | Except.ok a => (CBOutcome.ok a, { cb with failureCount := 0 }, true)
    | Except.error e =>
        (CBOutcome.failed e,
         { failureCount := cb.failureCount + 1, lastFailureTime := now }, true)

/-- A failing call through the breaker at time `t`, keeping only the state. -/
def failAt (cb : CircuitBreaker) (t : Nat) : CircuitBreaker :=
  (CircuitBreaker.execute (ε := Unit) (α := Unit) cb t (Except.error ())).2.1

/-- The breaker state after five consecutive failing calls, at times t1..t5,
starting from a fresh breaker. -/
def afterFiveFailures (t1 t2 t3 t4 t5 : Nat) : CircuitBreaker :=
  failAt (failAt (failAt (failAt (failAt ⟨0, 0⟩ t1) t2) t3) t4) t5

/-! ## Retry with exponential backoff (part_015, withRetry) -/

/-- Error raised by withRetry: either the error of the final attempt,
re-raised after exhausting retries, or the guard after the loop, reachable
only when maxRetries is zero. -/
inductive RetryErr (ε : Type) where
  | fromAttempt (e : ε)
  | unreachableGuard
deriving Repr, DecidableEq

/-- Loop body of withRetry. `fn i` is the outcome of the i-th invocation of
the wrapped operation (1-based), `jitter i` the value drawn from
Math.random()*1000 before the wait that follows a failed attempt i. Returns
the final outcome, the number of invocations performed, and the list of
delays waited between consecutive attempts. -/
def withRetryGo (fn : Nat → Except ε α) (baseDelay : Nat) (jitter : Nat → Nat) :
    Nat → Nat → Except (RetryErr ε) α × Nat × List Nat
  | _, 0 => (Except.error RetryErr.unreachableGuard, 0, [])
  | attempt, left + 1 =>
    match fn attempt with
    | Except.ok a => (Except.ok a, 1, [])
    | Except.error e =>
      if left = 0 then
        (Except.error (RetryErr.fromAttempt e), 1, [])
      else
        let d := baseDelay * 2 ^ (attempt - 1) + jitter attempt
        let r := withRetryGo fn baseDelay jitter (attempt + 1) left
        (r.1, r.2.1 + 1, d :: r.2.2)

/-- withRetry from part_015: attempts run from 1 to maxRetries; any error of
a non-final attempt leads, after a backoff wait of
baseDelay * 2 ^ (attempt - 1) + jitter, to the next attempt; the error of
attempt maxRetries is re-raised. -/
def withRetry (fn : Nat → Except ε α) (maxRetries : Nat) (baseDelay : Nat)
    (jitter : Nat → Nat) : Except (RetryErr ε) α × Nat × List Nat :=
  withRetryGo fn baseDelay jitter 1 maxRetries

/-- Error kinds in the vocabulary of the spec: a permanent upstream error
(season or round absent upstream) and a transient one. The source carries
untagged Error values, so withRetry receives these only as opaque values. -/
inductive SrcErr where
  | sourceDataErr
  | transientErr
deriving Repr, DecidableEq

/-! ## Redis cache read-through (src/lib/database/client.ts, RedisClient) -/

/-- A value stored through SETEX: the serialized value, the time it was
stored, and its time to live. Redis deletes the key when the ttl elapses, so
an expired entry is never readable again. -/
structure CacheEntry where
  value : String
  storedAt : Nat
  ttl : Nat
deriving Repr, DecidableEq

/-- redisGet models this.client.get(key) at time `now` over a SETEX-populated
store: the stored value while the ttl has not elapsed, null afterwards. -/
def redisGet (store : List (String × CacheEntry)) (key : String) (now : Nat) :
    Option String :=
  match store.find? (fun p => p.1 = key) with
  | some p => if now < p.2.storedAt + p.2.ttl then some p.2.value else none
  | none => none

/-- redisSetex models this.client.setex(key, ttl, value): the key now maps to
the fresh value with the fresh ttl. -/
def redisSetex (store : List (String × CacheEntry)) (key v : String)
    (ttl now : Nat) : List (String × CacheEntry) :=
  (key, ⟨v, now, ttl⟩) :: store.filter (fun p => ¬ p.1 = key)

/-- RedisClient.getOrSet: read the key; on a hit return it; on a miss invoke
the fetcher and, on success, write the result back (the background set) and
return it; if the fetcher raises, read the key again and return that value
when one is retrievable, otherwise re-raise the fetcher error. The second
read runs over the same store at the same time as the first. -/
def RedisClient.getOrSet (store : List (String × CacheEntry)) (key : String)
    (fetcher : Except SrcErr String) (ttl now : Nat) :
    Except SrcErr String × List (String × CacheEntry) :=
  match redisGet store key now with
  | some v => (Except.ok v, store)
  | none =>
    match fetcher with
    | Except.ok fresh => (Except.ok fresh, redisSetex store key fresh ttl now)
    | Except.error e =>
      match redisGet store key now with
      | some stale => (Except.ok stale, store)
      | none => (Except.error e, store)

/-! ## Driver standings upsert (part_012, F1Repository.updateDriverStandings,
and src/lib/database/schema.sql, table driver_standings) -/

/-- A driver_standings row. The serial id and the timestamps do not affect
row identity or the upsert and are omitted; points is DECIMAL(10,2), modelled
as a rational. -/
structure DriverStanding where
  season_id : String
  race_id : Nat
  driver_id : String
  position : Int
  points : ℚ
  wins : Int
  podiums : Int
  fastest_laps : Int
  races_entered : Int
  races_finished : Int
  dnf_count : Int
deriving Repr, DecidableEq

/-- The unique key of driver_standings: UNIQUE(season_id, race_id,
driver_id). -/
def standingKey (r : DriverStanding) : String × Nat × String :=
  (r.season_id, r.race_id, r.driver_id)

/-- The mutable fields overwritten by the DO UPDATE branch of the upsert. -/
def mutableFields (r : DriverStanding) : Int × ℚ × Int × Int × Int × Int × Int × Int :=
  (r.position, r.points, r.wins, r.podiums, r.fastest_laps,
   r.races_entered, r.races_finished, r.dnf_count)

/-- The DO UPDATE SET assignment of the upsert: overwrite the mutable fields
of an existing row with those of the excluded record, leaving the key
untouched. -/
def applyUpdate (row r : DriverStanding) : DriverStanding :=
  { row with position := r.position, points := r.points, wins := r.wins,
             podiums := r.podiums, fastest_laps := r.fastest_laps,
             races_entered := r.races_entered,
             races_finished := r.races_finished,
             dnf_count := r.dnf_count }

/-- INSERT ... ON CONFLICT (season_id, race_id, driver_id) DO UPDATE SET: if
a row with the same key exists, its mutable fields are overwritten in place;
otherwise the record is inserted as a new row. -/
def upsertDriverStanding (table : List DriverStanding) (r : DriverStanding) :
    List DriverStanding :=
  if table.any (fun row => standingKey row = standingKey r) then
    table.map (fun row =>
      if standingKey row = standingKey r then applyUpdate row r else row)
  else table ++ [r]

/-- F1Repository.updateDriverStandings: one upsert per record, in order,
inside a single transaction. -/
def updateDriverStandings (table : List DriverStanding)
    (standings : List DriverStanding) : List DriverStanding :=
  standings.foldl upsertDriverStanding table

/-- Number of rows of the table carrying a given key. -/
def countKey (table : List DriverStanding) (k : String × Nat × String) : Nat :=
  (table.filter (fun row => standingKey row = k)).length

/-- The schema invariant UNIQUE(season_id, race_id, driver_id): at most one
row per key. -/
def uniqueKeys (table : List DriverStanding) : Prop :=
  ∀ k, countKey table k ≤ 1

/-! ## Season completeness (src/lib/database/schema.sql,
calculate_season_completeness) -/

/-- The slice of a races row the function reads: its season and whether
race_results IS NOT NULL. -/
structure RaceRow where
  season_id : String
  hasRaceResults : Bool
deriving Repr, DecidableEq

/-- The slice of a seasons row the function writes. -/
structure SeasonRow where
  id : String
  data_completeness : ℚ
deriving Repr, DecidableEq

/-- ROUND(x, 2) of PostgreSQL numeric values: round half away from zero to
two decimal places; on the nonnegative completeness values this agrees with
rounding half up, which is the rounding of Mathlib. -/
def round2 (x : ℚ) : ℚ := (round (x * 100) : ℤ) / 100

/-- calculate_season_completeness: count the races of the season and those
among them with recorded results, divide, round to the DECIMAL(3,2) result
type, zero when the season has no races, and persist the value into the
matching seasons row. Returns the value and the updated seasons table. -/
def calculate_season_completeness (races : List RaceRow)
    (seasons : List SeasonRow) (sid : String) : ℚ × List SeasonRow :=
  let total := (races.filter (fun r => r.season_id = sid)).length
  let completed :=
    (races.filter (fun r => decide (r.season_id = sid) && r.hasRaceResults)).length
  let c : ℚ := if total = 0 then 0 else round2 ((completed : ℚ) / (total : ℚ))
  (c, seasons.map (fun s => if s.id = sid then { s with data_completeness := c } else s))

/-! ## File storage engine (src/lib/storage/StorageEngine.ts, RobustStorage) -/

/-- The stored metadata record; fields the modelled behavior never reads
(key, lastAccessed, lastModified, version) are omitted. -/
structure StorageMetadata where
  size : Nat
  created : Nat
  ttl : Nat
  checksum : String
deriving Repr, DecidableEq

/-- The sha256 digest, modelled as an injective tagging of the content. -/
def generateChecksum (s : String) : String := "sha256:" ++ s

/-- The per-key slice of the storage directories: the data file, the
metadata file, the two temp files, and the backup files for that key, most
recent first. -/
structure KeyFiles where
  dataFile : Option String
  metaFile : Option StorageMetadata
  tmpData : Option String
  tmpMeta : Option StorageMetadata
  backups : List String
deriving Repr, DecidableEq

/-- Which primitive filesystem operations of one RobustStorage.set call
fail. The backup copy failure is caught and logged inside createBackup; the
others reject the corresponding promise. -/
structure SetFailures where
  failBackup : Bool
  failWriteTmpData : Bool
  failWriteTmpMeta : Bool
  failRenameData : Bool
  failRenameMeta : Bool
deriving Repr, DecidableEq

/-- The set failure surfaced to the caller: the size rejection thrown before
any filesystem operation, a temp write rejection, or a rename rejection. -/
inductive SetError where
  | sizeLimitExceeded
  | writeFailed
  | renameFailed
deriving Repr, DecidableEq

/-- RobustStorage.set: reject oversized data before touching any file; back
up the existing data file; write data and metadata to temp files; rename
both temp files into place with Promise.all, so one rename can complete
while the other rejects; on any rejection unlink the temp files and
re-raise. Returns the error, if any, and the per-key state after the call. -/
def RobustStorage.set (maxSize backupCount : Nat) (st : KeyFiles)
    (data : String) (ttl now : Nat) (f : SetFailures) :
    Option SetError × KeyFiles :=
  if maxSize < data.length then (some SetError.sizeLimitExceeded, st)
  else
    let bks :=
      match st.dataFile with
      | some old => if f.failBackup then st.backups else (old :: st.backups).take backupCount
      | none => st.backups
    let meta : StorageMetadata := ⟨data.length, now, ttl, generateChecksum data⟩
    let st1 := { st with backups := bks }
    if f.failWriteTmpData || f.failWriteTmpMeta then
      (some SetError.writeFailed, { st1 with tmpData := none, tmpMeta := none })
    else
      match f.failRenameData, f.failRenameMeta with
      | false, false =>
        (none, { st1 with dataFile := some data, metaFile := some meta,
                          tmpData := none, tmpMeta := none })
      | true, false =>
        (some SetError.renameFailed,
         { st1 with metaFile := some meta, tmpData := none, tmpMeta := none })
      | false, true =>
        (some SetError.renameFailed,
         { st1 with dataFile := some data, tmpData := none, tmpMeta := none })
      | true, true =>
        (some SetError.renameFailed, { st1 with tmpData := none, tmpMeta := none })

/-- restoreFromBackup, at the value level: the most recent readable backup
content, if any. -/
def restoreValueFromBackup (st : KeyFiles) : Option String := st.backups.head?

/-- RobustStorage.get at time `now`: null when data or metadata is missing;
null after deleting the key when the ttl (when nonzero, as the source guards
with a truthiness test) has elapsed; the data when its checksum matches the
metadata; otherwise the value recovered from the most recent backup, null
when none is readable. The lastAccessed bookkeeping write does not affect
any returned value and is omitted. -/
def RobustStorage.get (st : KeyFiles) (now : Nat) : Option String :=
  match st.dataFile, st.metaFile with
  | some d, some m =>
    if m.ttl ≠ 0 ∧ m.ttl < now - m.created then none
    else if generateChecksum d = m.checksum then some d
    else restoreValueFromBackup st
  | _, _ => none

/-- A per-key state is consistent when data and metadata are present and the
stored checksum matches the data, as every fully successful set leaves it. -/
def KeyFiles.Consistent (st : KeyFiles) : Prop :=
  ∃ d m, st.dataFile = some d ∧ st.metaFile = some m ∧
    m.checksum = generateChecksum d

/-! ## Sync orchestrator and its concurrency limiter (part_014,
F1DataSyncService.syncCompleteSeasonData and executeWithConcurrency) -/

/-- One race-sync task: how long it runs once started and whether its
promise fulfills. A task begins running the moment the loop invokes it. -/
structure TaskSpec where
  dur : Nat
  ok : Bool
deriving Repr, DecidableEq

/-- Simulation state of the executeWithConcurrency loop: the current time of
the loop code, the promises in the executing array as (settle time,
fulfilled) pairs, and the (start, settle) interval of every task started so
far. -/
structure ExecState where
  time : Nat
  executing : List (Nat × Bool)
  intervals : List (Nat × Nat)
deriving Repr, DecidableEq

/-- Promise.race over a nonempty promise list settles with the earliest
settling promise, the earlier array position winning ties. -/
def raceWinner (q : Nat × Bool) (rest : List (Nat × Bool)) : Nat × Bool :=
  rest.foldl (fun w p => if p.1 < w.1 then p else w) q

/-- The loop of executeWithConcurrency. Each iteration starts the next task
and pushes its promise; when the array holds at least `c` promises the loop
awaits Promise.race over it and then splices out the promise found by
findIndex on the current promise, which is the element just pushed, so the
array reverts to its content before the push. A race won by a rejected
promise makes the await throw and aborts the loop. Returns whether the loop
ran to completion, and the final state. -/
def runTaskLoop (c : Nat) : List TaskSpec → ExecState → Bool × ExecState
  | [], st => (true, st)
  | t :: rest, st =>
    let settle := st.time + t.dur
    let exec1 := st.executing ++ [(settle, t.ok)]
    let ints := st.intervals ++ [(st.time, settle)]
    if c ≤ exec1.length then
      match exec1 with
      | [] => (true, st)
      | q :: qs =>
        let w := raceWinner q qs
        let st1 : ExecState := ⟨max st.time w.1, st.executing, ints⟩
        if w.2 then runTaskLoop c rest st1 else (false, st1)
    else
      runTaskLoop c rest ⟨st.time, exec1, ints⟩

/-- executeWithConcurrency: run the loop from the empty state and then await
Promise.all over the promises still in the executing array. Returns whether
the call fulfilled, and the final simulation state; the recorded intervals
list one entry per task started. -/
def executeWithConcurrency (tasks : List TaskSpec) (c : Nat) :
    Bool × ExecState :=
  let r := runTaskLoop c tasks ⟨0, [], []⟩
  if r.1 then (r.2.executing.all (fun p => p.2), r.2) else (false, r.2)

/-- Number of tasks the limiter started at all. -/
def startedCount (tasks : List TaskSpec) (c : Nat) : Nat :=
  (executeWithConcurrency tasks c).2.intervals.length

/-- Number of tasks whose run interval covers the instant `x`. -/
def inFlightAt (ints : List (Nat × Nat)) (x : Nat) : Nat :=
  (ints.filter (fun p => p.1 ≤ x && x < p.2)).length

/-- Observable outcome of syncCompleteSeasonData, steps 3 to 6. -/
structure SeasonSyncOutcome where
  raceResultsOk : Bool
  racesStarted : Nat
  qualifyingPhaseRan : Bool
  standingsPhaseRan : Bool
  completenessUpdated : Bool
  threw : Bool
deriving Repr, DecidableEq

/-- syncCompleteSeasonData, steps 3 to 6: sync race results with controlled
concurrency, then qualifying results, then standings, then season
completeness. The surrounding catch block logs the error and rethrows, so a
rejection in the race-results step skips every later step and the whole
call rejects. -/
def syncCompleteSeasonData (raceTasks qualTasks : List TaskSpec) (c : Nat) :
    SeasonSyncOutcome :=
  let races := executeWithConcurrency raceTasks c
  if races.1 then
    let quals := executeWithConcurrency qualTasks c
    if quals.1 then
      ⟨true, races.2.intervals.length, true, true, true, false⟩
    else
      ⟨true, races.2.intervals.length, true, false, false, true⟩
  else
    ⟨false, races.2.intervals.length, false, false, false, true⟩

/-! ## Concrete scenarios used by the counterexamples -/

/-- A 24-race season whose first race-results sync rejects promptly while the
other 23 syncs are slow and succeed. -/
def cexRaceTasks : List TaskSpec := ⟨1, false⟩ :: List.replicate 23 ⟨100, true⟩

/-- Four race-sync tasks of which the first finishes quickly and the rest
run long, all fulfilling. -/
def burstTasks : List TaskSpec :=
  [⟨1, true⟩, ⟨100, true⟩, ⟨100, true⟩, ⟨100, true⟩]

/-- A season of three races of which one has recorded results. -/
def thirdSeasonRaces : List RaceRow :=
  [⟨"2024", true⟩, ⟨"2024", false⟩, ⟨"2024", false⟩]

/-- A consistent stored key: data "old" with matching metadata, ttl zero so
no expiry applies, and no backups yet. -/
def cexPreState : KeyFiles :=
  ⟨some "old", some ⟨3, 0, 0, generateChecksum "old"⟩, none, none, []⟩

/-- The standing record of the idempotence example: season 2024, race 5,
driver VER with 200 points. -/
def cexStanding : DriverStanding :=
  ⟨"2024", 5, "VER", 1, 200, 3, 5, 2, 10, 9, 1⟩

/-- A 24-race season of which 12 races have recorded results. -/
def halfSeasonRaces : List RaceRow :=
  List.replicate 12 ⟨"2024", true⟩ ++ List.replicate 12 ⟨"2024", false⟩

/-! ## Theorems -/

/-- C7 counterexample: the static storage class lives 30 days, not the 24
hours the claim states; the other conjuncts of the claim do hold. -/
theorem storageConfig_staticTtl_cex :
    F1_STORAGE_CONFIG.staticTtl = 30 * 24 * 60 * 60 * 1000 ∧
    F1_STORAGE_CONFIG.staticTtl ≠ 24 * 60 * 60 * 1000 := by decide

/-- C7 (amended): the cache layer assigns TTLs by volatility class — static
data 30 days, historical data 7 days, current-season data 1 hour (within the
30 to 60 minute band), realtime data 5 minutes. -/
theorem storageConfig_ttl_classes :
    F1_STORAGE_CONFIG.staticTtl = 30 * 24 * 60 * 60 * 1000 ∧
    F1_STORAGE_CONFIG.historicalTtl = 7 * 24 * 60 * 60 * 1000 ∧
    F1_STORAGE_CONFIG.currentTtl = 60 * 60 * 1000 ∧
    30 * 60 * 1000 ≤ F1_STORAGE_CONFIG.currentTtl ∧
    F1_STORAGE_CONFIG.currentTtl ≤ 60 * 60 * 1000 ∧
    F1_STORAGE_CONFIG.realtimeTtl = 5 * 60 * 1000 := by decide

/-- C8: the limiter violates its bound. With four tasks and concurrency 2,
where the first task settles at time 1 and the rest run long, three tasks
are in flight at time 1: the loop splices out the promise it just pushed
instead of the settled one, so an already-settled promise stays in the
array, every later Promise.race resolves immediately, and new tasks start
while the earlier ones still run. -/
theorem executeWithConcurrency_boundViolated :
    inFlightAt (executeWithConcurrency burstTasks 2).2.intervals 1 = 3 ∧
    2 < 3 ∧ burstTasks.length = 4 := by decide

/-- C2: the circuit breaker protocol. Five consecutive failing calls from a
fresh breaker leave it with failure count five and the fifth failure time;
any call strictly within the 60 s recovery timeout of the last failure fails
fast with the circuit-open outcome without invoking the guarded function and
without changing state; once 60 s have elapsed, the next call does invoke
the function — a success resets the failure count to zero (closed), while a
failure sets the state to count six with the trial time as the new last
failure, so that every call within the next 60 s window again fails fast
without invoking the function. -/
theorem circuitBreaker_protocol (t1 t2 t3 t4 t5 now later : Nat)
    (fnRes fnRes2 : Except Unit Unit) :
    afterFiveFailures t1 t2 t3 t4 t5 = ⟨5, t5⟩ ∧
    (now - t5 < recoveryTimeout →
      CircuitBreaker.execute (⟨5, t5⟩ : CircuitBreaker) now fnRes =
        (CBOutcome.circuitOpenError, ⟨5, t5⟩, false)) ∧
    (recoveryTimeout ≤ now - t5 →
      (CircuitBreaker.execute (⟨5, t5⟩ : CircuitBreaker) now fnRes).2.2 = true ∧
      (∀ a, fnRes = Except.ok a →
        (CircuitBreaker.execute (⟨5, t5⟩ : CircuitBreaker) now fnRes).2.1.failureCount = 0) ∧
      (∀ e, fnRes = Except.error e →
        (CircuitBreaker.execute (⟨5, t5⟩ : CircuitBreaker) now fnRes).2.1 = ⟨6, now⟩ ∧
        (later - now < recoveryTimeout →
          CircuitBreaker.execute (⟨6, now⟩ : CircuitBreaker) later fnRes2 =
            (CBOutcome.circuitOpenError, ⟨6, now⟩, false)))) := by
  refine ⟨?_, ?_, ?_⟩
  · simp [afterFiveFailures, failAt, CircuitBreaker.execute, CircuitBreaker.isOpen,
      failureThreshold]
  · intro h
    simp [CircuitBreaker.execute, CircuitBreaker.isOpen, failureThreshold, h]
  · intro h
    have hno : ¬ (now - t5 < recoveryTimeout) := Nat.not_lt.mpr h
    refine ⟨?_, ?_, ?_⟩
    · cases fnRes <;>
        simp [CircuitBreaker.execute, CircuitBreaker.isOpen, failureThreshold, hno]
    · rintro a rfl
      simp [CircuitBreaker.execute, CircuitBreaker.isOpen, failureThreshold, hno]
    · rintro e rfl
      refine ⟨?_, ?_⟩
      · simp [CircuitBreaker.execute, CircuitBreaker.isOpen, failureThreshold, hno]
      · intro h2
        have hopen : CircuitBreaker.isOpen ⟨6, now⟩ later = true := by
          simp [CircuitBreaker.isOpen, failureThreshold, recoveryTimeout] at h2 ⊢
          omega
        simp [CircuitBreaker.execute, hopen]

/-- C2 witness: with failures at times 1..5 and a sixth call at time 100
(within the timeout), the call fails fast with the circuit-open outcome and
the fresh-breaker fold indeed reaches the open state. -/
theorem circuitBreaker_protocol_witness :
    CircuitBreaker.execute (⟨5, (5 : Nat)⟩ : CircuitBreaker) 100
        (Except.error () : Except Unit Unit) =
      (CBOutcome.circuitOpenError, ⟨5, 5⟩, false) ∧
    afterFiveFailures 1 2 3 4 5 = ⟨5, 5⟩ :=
  ⟨(circuitBreaker_protocol 1 2 3 4 5 100 0 (Except.error ()) (Except.ok ())).2.1
      (by decide),
   (circuitBreaker_protocol 1 2 3 4 5 100 0 (Except.error ()) (Except.ok ())).1⟩

/-- The retry loop performs at most as many invocations as it has attempts
left. -/
theorem withRetryGo_count_le (fn : Nat → Except ε α) (b : Nat) (j : Nat → Nat) :
    ∀ left attempt, (withRetryGo fn b j attempt left).2.1 ≤ left := by
  intro left
  induction left with
  | zero => intro attempt; simp [withRetryGo]
  | succ k ih =>
    intro attempt
    simp only [withRetryGo]
    cases h : fn attempt with
    | ok a => simp
    | error e =>
      by_cases hk : k = 0
      · subst hk; simp
      · simp only [hk, if_false]
        exact Nat.succ_le_succ (ih (attempt + 1))

/-- With at least one attempt left, the loop invokes the operation at least
once. -/
theorem withRetryGo_count_pos (fn : Nat → Except ε α) (b : Nat) (j : Nat → Nat)
    (left attempt : Nat) (h : 1 ≤ left) :
    1 ≤ (withRetryGo fn b j attempt left).2.1 := by
  rcases left with _ | k
  · omega
  · simp only [withRetryGo]
    cases h2 : fn attempt with
    | ok a => exact le_refl 1
    | error e =>
      by_cases hk : k = 0
      · simp only [hk, if_true]
        exact le_refl 1
      · simp only [hk, if_false]
        exact Nat.succ_le_succ (Nat.zero_le _)

/-- The retry loop waits exactly once between consecutive invocations: the
delay list is one shorter than the invocation count. -/
theorem withRetryGo_delays_len (fn : Nat → Except ε α) (b : Nat) (j : Nat → Nat) :
    ∀ left attempt,
      (withRetryGo fn b j attempt left).2.2.length =
        (withRetryGo fn b j attempt left).2.1 - 1 := by
  intro left
  induction left with
  | zero => intro attempt; simp [withRetryGo]
  | succ k ih =>
    intro attempt
    simp only [withRetryGo]
    cases h : fn attempt with
    | ok a => simp
    | error e =>
      by_cases hk : k = 0
      · subst hk; simp
      · have hpos : 1 ≤ (withRetryGo fn b j (attempt + 1) k).2.1 :=
          withRetryGo_count_pos fn b j k (attempt + 1)
            (Nat.one_le_iff_ne_zero.mpr hk)
        simp only [hk, if_false, List.length_cons]
        rw [ih (attempt + 1)]
        omega

/-- When every remaining attempt fails, the loop performs them all and
re-raises the error of the final attempt. -/
theorem withRetryGo_allFail (fn : Nat → Except ε α) (b : Nat) (j : Nat → Nat) :
    ∀ left attempt, 1 ≤ left →
      (∀ i, attempt ≤ i → i < attempt + left → ∃ e, fn i = Except.error e) →
      ∃ e, fn (attempt + left - 1) = Except.error e ∧
        (withRetryGo fn b j attempt left).1 = Except.error (RetryErr.fromAttempt e) ∧
        (withRetryGo fn b j attempt left).2.1 = left := by
  intro left
  induction left with
  | zero => intro attempt h; omega
  | succ k ih =>
    intro attempt _ hall
    obtain ⟨e, he⟩ := hall attempt (Nat.le_refl _) (by omega)
    by_cases hk : k = 0
    · subst hk
      refine ⟨e, ?_, ?_, ?_⟩ <;> simp [withRetryGo, he]
    · have h2 : 1 ≤ k := Nat.one_le_iff_ne_zero.mpr hk
      obtain ⟨e2, he2, hres, hcount⟩ :=
        ih (attempt + 1) h2 (fun i hi1 hi2 => hall i (by omega) (by omega))
      refine ⟨e2, ?_, ?_, ?_⟩
      · have harith : attempt + 1 + k - 1 = attempt + (k + 1) - 1 := by omega
        rwa [harith] at he2
      · simp [withRetryGo, he, hk, hres]
      · simp [withRetryGo, he, hk, hcount]

/-- C10: for maxRetries n at least one, withRetry invokes the operation at
most n times, a backoff wait occurs exactly between consecutive invocations
(one wait fewer than invocations), and when all n attempts fail the error it
re-raises is exactly the error of the n-th, final invocation. -/
theorem withRetry_attemptBound_lastError (fn : Nat → Except ε α)
    (n baseDelay : Nat) (jitter : Nat → Nat) (hn : 1 ≤ n) :
    (withRetry fn n baseDelay jitter).2.1 ≤ n ∧
    (withRetry fn n baseDelay jitter).2.2.length =
      (withRetry fn n baseDelay jitter).2.1 - 1 ∧
    ((∀ i, 1 ≤ i → i ≤ n → ∃ e, fn i = Except.error e) →
      (withRetry fn n baseDelay jitter).2.1 = n ∧
      ∃ e, fn n = Except.error e ∧
        (withRetry fn n baseDelay jitter).1 =
          Except.error (RetryErr.fromAttempt e)) := by
  refine ⟨withRetryGo_count_le fn baseDelay jitter n 1,
          withRetryGo_delays_len fn baseDelay jitter n 1, ?_⟩
  intro hall
  obtain ⟨e, he, hres, hcount⟩ :=
    withRetryGo_allFail fn baseDelay jitter n 1 hn
      (fun i hi1 hi2 => hall i hi1 (by omega))
  have harith : 1 + n - 1 = n := by omega
  rw [harith] at he
  exact ⟨hcount, e, he, hres⟩

/-- C10 witness: an operation failing on all of its 3 attempts is invoked 3
times, waits twice, and the re-raised error is that of attempt 3. -/
theorem withRetry_attemptBound_lastError_witness :
    (1 : Nat) ≤ 3 ∧
    (withRetry (fun i => (Except.error (10 + i) : Except Nat Unit)) 3 1000
        (fun _ => 0)).2.1 = 3 ∧
    ∃ e, (fun i => (Except.error (10 + i) : Except Nat Unit)) 3 = Except.error e ∧
      (withRetry (fun i => (Except.error (10 + i) : Except Nat Unit)) 3 1000
          (fun _ => 0)).1 = Except.error (RetryErr.fromAttempt e) :=
  ⟨by decide,
   (withRetry_attemptBound_lastError (fun i => (Except.error (10 + i) : Except Nat Unit))
       3 1000 (fun _ => 0) (by decide)).2.2
     (fun i _ _ => ⟨10 + i, rfl⟩)⟩

/-- C3 counterexample: an operation that always throws the permanent
sourceDataErr is invoked 3 times by withRetry with default maxRetries 3 — not
re-raised without further attempts, as the claim states. -/
theorem withRetry_retriesPermanentError_cex :
    (withRetry (fun _ => (Except.error SrcErr.sourceDataErr : Except SrcErr Unit))
        3 1000 (fun _ => 0)).2.1 = 3 ∧ (3 : Nat) ≠ 1 := by decide

/-- C3 (amended): withRetry applies no error-kind exemption — an operation
failing with the permanent sourceDataErr on every attempt is invoked
maxRetries times and its error is re-raised only after exhausting all
attempts; only the attempt budget, never the error kind, stops retrying. -/
theorem withRetry_noPermanentExemption (n baseDelay : Nat) (jitter : Nat → Nat)
    (hn : 1 ≤ n) :
    (withRetry (fun _ => (Except.error SrcErr.sourceDataErr : Except SrcErr Unit))
        n baseDelay jitter).2.1 = n ∧
    (withRetry (fun _ => (Except.error SrcErr.sourceDataErr : Except SrcErr Unit))
        n baseDelay jitter).1 =
      Except.error (RetryErr.fromAttempt SrcErr.sourceDataErr) := by
  obtain ⟨e, he, hres, hcount⟩ :=
    withRetryGo_allFail (fun _ => (Except.error SrcErr.sourceDataErr : Except SrcErr Unit))
      baseDelay jitter n 1 hn (fun i _ _ => ⟨SrcErr.sourceDataErr, rfl⟩)
  cases he
  exact ⟨hcount, hres⟩

/-- C3 amended witness: at maxRetries 2 the permanent error is attempted
twice and then re-raised. -/
theorem withRetry_noPermanentExemption_witness :
    (1 : Nat) ≤ 2 ∧
    (withRetry (fun _ => (Except.error SrcErr.sourceDataErr : Except SrcErr Unit))
        2 500 (fun _ => 7)).2.1 = 2 ∧
    (withRetry (fun _ => (Except.error SrcErr.sourceDataErr : Except SrcErr Unit))
        2 500 (fun _ => 7)).1 =
      Except.error (RetryErr.fromAttempt SrcErr.sourceDataErr) :=
  ⟨by decide, withRetry_noPermanentExemption 2 500 (fun _ => 7) (by decide)⟩

/-- C1 counterexample: in a 24-race season whose first race-results sync
rejects promptly while the others run long, the season sync rejects and only
5 of the 24 races are ever started — the remaining races are never
attempted and the completeness step never runs, so the orchestrator is
fail-fast, not partial-failure tolerant. -/
theorem seasonSync_abortsOnRaceFailure_cex :
    (syncCompleteSeasonData cexRaceTasks [] 5).threw = true ∧
    startedCount cexRaceTasks 5 = 5 ∧
    cexRaceTasks.length = 24 ∧
    (syncCompleteSeasonData cexRaceTasks [] 5).qualifyingPhaseRan = false ∧
    (syncCompleteSeasonData cexRaceTasks [] 5).completenessUpdated = false := by
  decide

/-- C1 (amended): a race-results sync failure is not caught per race by the
orchestrator — whenever the concurrency-limited race-results step rejects,
syncCompleteSeasonData rethrows: it reports failure, the qualifying,
standings and completeness steps never run, and only the races started
before the rejection were attempted. -/
theorem seasonSync_failFast (raceTasks qualTasks : List TaskSpec) (c : Nat)
    (h : (executeWithConcurrency raceTasks c).1 = false) :
    (syncCompleteSeasonData raceTasks qualTasks c).threw = true ∧
    (syncCompleteSeasonData raceTasks qualTasks c).qualifyingPhaseRan = false ∧
    (syncCompleteSeasonData raceTasks qualTasks c).standingsPhaseRan = false ∧
    (syncCompleteSeasonData raceTasks qualTasks c).completenessUpdated = false ∧
    (syncCompleteSeasonData raceTasks qualTasks c).racesStarted =
      startedCount raceTasks c := by
  simp [syncCompleteSeasonData, startedCount, h]

/-- C1 amended witness: the 24-race scenario with an early failing first
race rejects the whole season sync. -/
theorem seasonSync_failFast_witness :
    (executeWithConcurrency cexRaceTasks 5).1 = false ∧
    (syncCompleteSeasonData cexRaceTasks [] 5).threw = true :=
  ⟨by decide, (seasonSync_failFast cexRaceTasks [] 5 (by decide)).1⟩

/-- C4 counterexample: the key holds a prior, now expired, cached value and
the fetcher raises; getOrSet re-raises the fetcher error instead of
returning the stale value, because an expired entry is not retrievable from
the store. -/
theorem getOrSet_expiredValueNotServed_cex :
    (List.find? (fun p => p.1 = "k") [("k", (⟨"v", 0, 10⟩ : CacheEntry))]).isSome = true ∧
    (RedisClient.getOrSet [("k", ⟨"v", 0, 10⟩)] "k"
        (Except.error SrcErr.transientErr) 30 20).1 =
      Except.error SrcErr.transientErr := ⟨rfl, rfl⟩

/-- C4 (amended): when the initial read misses (in particular whenever the
prior value is expired) and the fetcher raises, getOrSet re-raises the
fetcher error and leaves the store unchanged — the fallback re-read runs
over the same store at the same instant and misses again; when the initial
read hits, the cached value is returned and the fetcher result is
irrelevant, so a fetcher error can never coexist with a retrievable prior
value in a sequential execution. -/
theorem getOrSet_errorPropagation (store : List (String × CacheEntry))
    (key : String) (e : SrcErr) (ttl now : Nat) :
    (redisGet store key now = none →
      RedisClient.getOrSet store key (Except.error e) ttl now =
        (Except.error e, store)) ∧
    (∀ v, redisGet store key now = some v →
      ∀ fetcher, RedisClient.getOrSet store key fetcher ttl now =
        (Except.ok v, store)) := by
  constructor
  · intro h
    simp [RedisClient.getOrSet, h]
  · intro v h fetcher
    simp [RedisClient.getOrSet, h]

/-- C4 amended witness: a store whose only entry for the key is expired at
read time propagates the fetcher error, and an unexpired entry is served
from cache. -/
theorem getOrSet_errorPropagation_witness :
    redisGet [("k", (⟨"v", 0, 10⟩ : CacheEntry))] "k" 20 = none ∧
    RedisClient.getOrSet [("k", (⟨"v", 0, 10⟩ : CacheEntry))] "k"
        (Except.error SrcErr.transientErr) 30 20 =
      (Except.error SrcErr.transientErr, [("k", (⟨"v", 0, 10⟩ : CacheEntry))]) :=
  ⟨by decide,
   (getOrSet_errorPropagation [("k", ⟨"v", 0, 10⟩)] "k" SrcErr.transientErr 30 20).1
     (by decide)⟩

/-- The DO UPDATE SET assignment never changes the key of the row. -/
theorem standingKey_applyUpdate (row r : DriverStanding) :
    standingKey (applyUpdate row r) = standingKey row := rfl

/-- The DO UPDATE SET assignment installs the mutable fields of the excluded
record. -/
theorem mutableFields_applyUpdate (row r : DriverStanding) :
    mutableFields (applyUpdate row r) = mutableFields r := rfl

/-- Key count of a cons cell. -/
theorem countKey_cons (x : DriverStanding) (l : List DriverStanding)
    (k : String × Nat × String) :
    countKey (x :: l) k = (if standingKey x = k then 1 else 0) + countKey l k := by
  simp only [countKey, List.filter_cons]
  by_cases h : standingKey x = k
  · simp [h, Nat.add_comm]
  · simp [h]

/-- Key count distributes over append. -/
theorem countKey_append (l1 l2 : List DriverStanding) (k : String × Nat × String) :
    countKey (l1 ++ l2) k = countKey l1 k + countKey l2 k := by
  simp [countKey, List.filter_append]

/-- The conflict-update pass of the upsert preserves every key count. -/
theorem countKey_mapUpdate (t : List DriverStanding) (r : DriverStanding)
    (k : String × Nat × String) :
    countKey (t.map (fun row =>
        if standingKey row = standingKey r then applyUpdate row r else row)) k =
      countKey t k := by
  induction t with
  | nil => rfl
  | cons a t ih =>
    have hkey : standingKey
        (if standingKey a = standingKey r then applyUpdate a r else a) =
          standingKey a := by
      by_cases ha : standingKey a = standingKey r
      · simp [ha, standingKey_applyUpdate]
      · simp [ha]
    rw [List.map_cons, countKey_cons, countKey_cons, hkey, ih]

/-- A key matched by some row of the table has a positive count. -/
theorem countKey_pos_of_any (t : List DriverStanding) (r : DriverStanding)
    (hany : t.any (fun row => standingKey row = standingKey r) = true) :
    1 ≤ countKey t (standingKey r) := by
  obtain ⟨row, hmem, hrow⟩ := List.any_eq_true.mp hany
  have hmemf : row ∈ t.filter (fun row => standingKey row = standingKey r) :=
    List.mem_filter.mpr ⟨hmem, hrow⟩
  have hne : t.filter (fun row => standingKey row = standingKey r) ≠ [] :=
    List.ne_nil_of_mem hmemf
  have := List.length_pos.mpr hne
  simpa [countKey] using this

/-- A key matched by no row of the table has count zero. -/
theorem countKey_eq_zero_of_any_false (t : List DriverStanding)
    (r : DriverStanding)
    (hany : t.any (fun row => standingKey row = standingKey r) = false) :
    countKey t (standingKey r) = 0 := by
  have hall := List.any_eq_false.mp hany
  simp only [countKey, List.length_eq_zero, List.filter_eq_nil_iff]
  intro a ha
  exact hall a ha

/-- Upserting a record into a table carrying its key at most once leaves the
key on exactly one row. -/
theorem countKey_upsert_self (t : List DriverStanding) (r : DriverStanding)
    (h : countKey t (standingKey r) ≤ 1) :
    countKey (upsertDriverStanding t r) (standingKey r) = 1 := by
  unfold upsertDriverStanding
  by_cases hany : t.any (fun row => standingKey row = standingKey r) = true
  · rw [if_pos hany, countKey_mapUpdate]
    have := countKey_pos_of_any t r hany
    omega
  · have hf := Bool.eq_false_iff.mpr hany
    rw [if_neg hany, countKey_append, countKey_eq_zero_of_any_false t r hf,
      countKey_cons]
    simp [countKey]

/-- Upserting a record leaves the count of every other key unchanged. -/
theorem countKey_upsert_other (t : List DriverStanding) (r : DriverStanding)
    (k : String × Nat × String) (hne : k ≠ standingKey r) :
    countKey (upsertDriverStanding t r) k = countKey t k := by
  unfold upsertDriverStanding
  by_cases hany : t.any (fun row => standingKey row = standingKey r) = true
  · rw [if_pos hany, countKey_mapUpdate]
  · rw [if_neg hany, countKey_append, countKey_cons]
    have : ¬ standingKey r = k := fun h => hne h.symm
    simp [countKey, this]

/-- Upserting preserves the uniqueness invariant of the standings table. -/
theorem uniqueKeys_upsert (t : List DriverStanding) (r : DriverStanding)
    (hu : uniqueKeys t) : uniqueKeys (upsertDriverStanding t r) := by
  intro k
  by_cases hk : k = standingKey r
  · subst hk
    rw [countKey_upsert_self t r (hu _)]
  · rw [countKey_upsert_other t r k hk]
    exact hu k

/-- After an upsert, every row carrying the upserted key holds the mutable
fields of the upserted record. -/
theorem mutableFields_upsert (t : List DriverStanding) (r : DriverStanding) :
    ∀ row ∈ upsertDriverStanding t r, standingKey row = standingKey r →
      mutableFields row = mutableFields r := by
  intro row hmem hkey
  unfold upsertDriverStanding at hmem
  by_cases hany : t.any (fun row => standingKey row = standingKey r) = true
  · rw [if_pos hany] at hmem
    obtain ⟨row0, hrow0, rfl⟩ := List.mem_map.mp hmem
    by_cases h0 : standingKey row0 = standingKey r
    · simp [h0, mutableFields_applyUpdate]
    · rw [if_neg h0] at hkey ⊢
      exact absurd hkey h0
  · rw [if_neg hany] at hmem
    rcases List.mem_append.mp hmem with hmem | hmem
    · exfalso
      have : t.any (fun row => standingKey row = standingKey r) = true :=
        List.any_eq_true.mpr ⟨row, hmem, by simpa using hkey⟩
      exact hany this
    · have : row = r := by simpa using hmem
      subst this
      rfl

/-- C5: running updateDriverStandings twice with records of identical
(season_id, race_id, driver_id) keys over a table satisfying the uniqueness
invariant leaves exactly one row with that key, preserves the invariant, and
that row carries the mutable fields of the second record — the second upsert
overwrites in place and creates no duplicate. -/
theorem driverStandings_upsert_idempotent (t : List DriverStanding)
    (r1 r2 : DriverStanding) (_hk : standingKey r1 = standingKey r2)
    (hu : uniqueKeys t) :
    countKey (updateDriverStandings (updateDriverStandings t [r1]) [r2])
        (standingKey r2) = 1 ∧
    uniqueKeys (updateDriverStandings (updateDriverStandings t [r1]) [r2]) ∧
    ∀ row ∈ updateDriverStandings (updateDriverStandings t [r1]) [r2],
      standingKey row = standingKey r2 → mutableFields row = mutableFields r2 := by
  have h1 : updateDriverStandings t [r1] = upsertDriverStanding t r1 := rfl
  have h2 : ∀ s, updateDriverStandings s [r2] = upsertDriverStanding s r2 :=
    fun s => rfl
  rw [h1, h2]
  have hu1 : uniqueKeys (upsertDriverStanding t r1) := uniqueKeys_upsert t r1 hu
  exact ⟨countKey_upsert_self _ r2 (hu1 _), uniqueKeys_upsert _ r2 hu1,
    mutableFields_upsert _ r2⟩

/-- C5 witness: upserting the example standing twice into an empty table
yields exactly one row for its key. -/
theorem driverStandings_upsert_idempotent_witness :
    standingKey cexStanding = standingKey cexStanding ∧
    countKey (updateDriverStandings (updateDriverStandings [] [cexStanding])
        [cexStanding]) (standingKey cexStanding) = 1 :=
  ⟨rfl,
   (driverStandings_upsert_idempotent [] cexStanding cexStanding rfl
     (fun k => by simp [countKey])).1⟩

/-- Rounding to two decimals keeps nonnegative values nonnegative. -/
theorem round2_nonneg (q : ℚ) (h : 0 ≤ q) : 0 ≤ round2 q := by
  unfold round2
  have h1 : (0 : ℤ) ≤ round (q * 100) := by
    rw [round_eq]
    exact Int.le_floor.mpr (by push_cast; linarith)
  have h2 : (0 : ℚ) ≤ ((round (q * 100) : ℤ) : ℚ) := by exact_mod_cast h1
  exact div_nonneg h2 (by norm_num)

/-- Rounding to two decimals keeps values at most one at most one. -/
theorem round2_le_one (q : ℚ) (h : q ≤ 1) : round2 q ≤ 1 := by
  unfold round2
  have h100 : (⌊(100 : ℚ) + 1 / 2⌋ : ℤ) = 100 :=
    Int.floor_eq_iff.mpr ⟨by norm_num, by norm_num⟩
  have h1 : round (q * 100) ≤ 100 := by
    rw [round_eq]
    have hmono : (⌊q * 100 + 1 / 2⌋ : ℤ) ≤ ⌊(100 : ℚ) + 1 / 2⌋ :=
      Int.floor_le_floor (by linarith)
    omega
  rw [div_le_one (by norm_num)]
  exact_mod_cast h1

/-- Among the races of a season, those with recorded results are no more
numerous than all of them. -/
theorem completed_le_total (races : List RaceRow) (sid : String) :
    (races.filter (fun r => decide (r.season_id = sid) && r.hasRaceResults)).length ≤
      (races.filter (fun r => r.season_id = sid)).length := by
  induction races with
  | nil => simp
  | cons a t ih =>
    simp only [List.filter_cons]
    by_cases h1 : a.season_id = sid
    · by_cases h2 : a.hasRaceResults = true
      · simp [h1, h2]
        omega
      · have h2f : a.hasRaceResults = false := Bool.eq_false_iff.mpr h2
        simp [h1, h2f]
        omega
    · simp [h1]
      exact ih

/-- C6 (amended): calculate_season_completeness returns the completed-over-
total ratio rounded to two decimal places (the DECIMAL(3,2) result type),
zero when the season has no races; the returned value lies in [0,1]; the
value is persisted into every season row with the given id, and rows of
other seasons are kept. -/
theorem completeness_rounding_spec (races : List RaceRow)
    (seasons : List SeasonRow) (sid : String) :
    ((races.filter (fun r => r.season_id = sid)).length = 0 →
      (calculate_season_completeness races seasons sid).1 = 0) ∧
    ((races.filter (fun r => r.season_id = sid)).length ≠ 0 →
      (calculate_season_completeness races seasons sid).1 =
        round2
          (((races.filter (fun r => decide (r.season_id = sid) && r.hasRaceResults)).length : ℚ) /
            ((races.filter (fun r => r.season_id = sid)).length : ℚ))) ∧
    0 ≤ (calculate_season_completeness races seasons sid).1 ∧
    (calculate_season_completeness races seasons sid).1 ≤ 1 ∧
    (∀ s ∈ (calculate_season_completeness races seasons sid).2, s.id = sid →
      s.data_completeness = (calculate_season_completeness races seasons sid).1) ∧
    (∀ s ∈ seasons, ¬ s.id = sid →
      s ∈ (calculate_season_completeness races seasons sid).2) := by
  have hle := completed_le_total races sid
  refine ⟨?_, ?_, ?_, ?_, ?_, ?_⟩
  · intro h
    simp [calculate_season_completeness, h]
  · intro h
    simp [calculate_season_completeness, h]
  · by_cases h : (races.filter (fun r => r.season_id = sid)).length = 0
    · simp [calculate_season_completeness, h]
    · simp only [calculate_season_completeness, h, if_false]
      refine round2_nonneg _ (div_nonneg (by positivity) (by positivity))
  · by_cases h : (races.filter (fun r => r.season_id = sid)).length = 0
    · simp [calculate_season_completeness, h]
    · simp only [calculate_season_completeness, h, if_false]
      refine round2_le_one _ ?_
      rw [div_le_one (by positivity)]
      exact_mod_cast hle
  · intro s hmem hid
    obtain ⟨s0, hs0, heq⟩ := List.mem_map.mp hmem
    by_cases h0 : s0.id = sid
    · rw [if_pos h0] at heq
      rw [← heq]
      simp [calculate_season_completeness]
    · rw [if_neg h0] at heq
      rw [← heq] at hid
      exact absurd hid h0
  · intro s hmem hid
    refine List.mem_map.mpr ⟨s, hmem, ?_⟩
    rw [if_neg hid]

/-- C6 counterexample: a season of three races with one result recorded
yields 33/100 — the ratio rounded to two decimals — and not the exact ratio
1/3 the claim states. -/
theorem completeness_notExactRatio_cex :
    (calculate_season_completeness thirdSeasonRaces [] "2024").1 = 33 / 100 ∧
    (33 : ℚ) / 100 ≠ 1 / 3 := by
  constructor
  · have h1 : ((thirdSeasonRaces.filter
        (fun r => decide (r.season_id = "2024") && r.hasRaceResults)).length) = 1 := by
      decide
    have h2 : ((thirdSeasonRaces.filter (fun r => r.season_id = "2024")).length) = 3 := by
      decide
    simp only [calculate_season_completeness, h1, h2]
    norm_num [round2, round_eq]
  · norm_num

/-- C6 amended witness: a 24-race season with 12 completed races has a
nonzero race count and completeness exactly one half, rounding included. -/
theorem completeness_rounding_spec_witness :
    (halfSeasonRaces.filter (fun r => r.season_id = "2024")).length ≠ 0 ∧
    (calculate_season_completeness halfSeasonRaces [] "2024").1 = 1 / 2 := by
  have h1 : ((halfSeasonRaces.filter
      (fun r => decide (r.season_id = "2024") && r.hasRaceResults)).length) = 12 := by
    decide
  have h2 : ((halfSeasonRaces.filter (fun r => r.season_id = "2024")).length) = 24 := by
    decide
  refine ⟨by rw [h2]; omega, ?_⟩
  have h := (completeness_rounding_spec halfSeasonRaces [] "2024").2.1
    (by rw [h2]; omega)
  rw [h, h1, h2]
  norm_num [round2, round_eq]

/-- C9 (amended): a set that fails before the rename phase — the oversize
rejection thrown before any filesystem operation, or a temp-file write
failure — reports an error, leaves the data and metadata of the key
unchanged, and a subsequent get at any time returns exactly what it returned
before the failed set; the two renames themselves, however, are not jointly
atomic (see the counterexample). -/
theorem robustStorage_set_preRenameAtomic (maxSize backupCount : Nat)
    (st : KeyFiles) (data : String) (ttl now : Nat) (f : SetFailures)
    (hfail : maxSize < data.length ∨ f.failWriteTmpData = true ∨
      f.failWriteTmpMeta = true)
    (hcons : st.Consistent) :
    (RobustStorage.set maxSize backupCount st data ttl now f).1.isSome = true ∧
    (RobustStorage.set maxSize backupCount st data ttl now f).2.dataFile =
      st.dataFile ∧
    (RobustStorage.set maxSize backupCount st data ttl now f).2.metaFile =
      st.metaFile ∧
    ∀ t, RobustStorage.get
        (RobustStorage.set maxSize backupCount st data ttl now f).2 t =
      RobustStorage.get st t := by
  obtain ⟨d, m, hd, hm, hck⟩ := hcons
  by_cases hsize : maxSize < data.length
  · refine ⟨?_, ?_, ?_, ?_⟩ <;> simp [RobustStorage.set, hsize]
  · have hw2 : (f.failWriteTmpData || f.failWriteTmpMeta) = true := by
      rcases hfail with h | h | h
      · exact absurd h hsize
      · simp [h]
      · simp [h]
    refine ⟨?_, ?_, ?_, ?_⟩
    · simp [RobustStorage.set, hsize, hw2, hd]
    · simp [RobustStorage.set, hsize, hw2, hd]
    · simp [RobustStorage.set, hsize, hw2, hd]
    · intro t
      simp [RobustStorage.set, hsize, hw2, hd, RobustStorage.get, hm, hck]

/-- C9 amended witness: an oversized write against a consistently stored key
is rejected and the stored data file is untouched. -/
theorem robustStorage_set_preRenameAtomic_witness :
    (RobustStorage.set 2 3 cexPreState "xyz" 0 5
        ⟨false, false, false, false, false⟩).1.isSome = true ∧
    (RobustStorage.set 2 3 cexPreState "xyz" 0 5
        ⟨false, false, false, false, false⟩).2.dataFile = cexPreState.dataFile :=
  ⟨(robustStorage_set_preRenameAtomic 2 3 cexPreState "xyz" 0 5
      ⟨false, false, false, false, false⟩ (Or.inl (by decide))
      ⟨"old", ⟨3, 0, 0, generateChecksum "old"⟩, rfl, rfl, rfl⟩).1,
   (robustStorage_set_preRenameAtomic 2 3 cexPreState "xyz" 0 5
      ⟨false, false, false, false, false⟩ (Or.inl (by decide))
      ⟨"old", ⟨3, 0, 0, generateChecksum "old"⟩, rfl, rfl, rfl⟩).2.1⟩

/-- C9 counterexample: when the data rename completes and the metadata
rename rejects — Promise.all runs both — the failed set has replaced the
previously stored data file, so the stored value is not left unchanged as
the claim states. -/
theorem robustStorage_set_renameNotAtomic_cex :
    (RobustStorage.set 1000 3 cexPreState "new" 0 5
        ⟨false, false, false, false, true⟩).1 = some SetError.renameFailed ∧
    (RobustStorage.set 1000 3 cexPreState "new" 0 5
        ⟨false, false, false, false, true⟩).2.dataFile = some "new" ∧
    cexPreState.dataFile = some "old" ∧
    (some "new" : Option String) ≠ some "old" := by decide

end F1Dashboard
